import Mathlib

/-!
# Verification of the Task Scheduler Task Cache registry plugin

Shallow embedding of `plaso/parsers/winreg_plugins/task_scheduler.py`
(class `TaskCachePlugin`): the data model of registry keys and values,
the recursive `_GetIdValue` traversal, the `DynamicInfo` fixed-layout
decoder (`_DYNAMIC_INFO_STRUCT`), and the `GetEntries` correlation loop,
together with theorems settling the specification's claims about them.

Machine integers are modelled as `Nat`; byte blobs as `List Nat`
(each entry a byte value); the `construct` little-endian unsigned
fields as explicit base-256 folds.  Event production and the
`logging.warning` diagnostics are modelled as explicit output lists.
-/

/-- A Windows Registry value as seen by the plugin: a name, the
interpreted data (`data`, a decoded string for the UTF-16 `Id` values
the plugin reads it from) and the raw bytes (`raw_data`).  The source
uses both attributes distinctly: `raw_data` for size checks and binary
decoding, `data` as the identifier-map key. -/
structure RegValue where
  name : String
  data : String
  raw_data : List Nat
deriving Repr, DecidableEq

/-- A Windows Registry key: name, named values, subkeys, last-written
timestamp, path and byte offset within the store. -/
inductive RegKey : Type where
  | mk (name : String) (values : List RegValue) (subkeys : List RegKey)
      (last_written_timestamp : Nat) (path : String) (offset : Nat) : RegKey

def RegKey.name : RegKey → String
  | .mk n _ _ _ _ _ => n

def RegKey.values : RegKey → List RegValue
  | .mk _ vs _ _ _ _ => vs

def RegKey.subkeys : RegKey → List RegKey
  | .mk _ _ ks _ _ _ => ks

def RegKey.last_written_timestamp : RegKey → Nat
  | .mk _ _ _ t _ _ => t

def RegKey.path : RegKey → String
  | .mk _ _ _ _ p _ => p

def RegKey.offset : RegKey → Nat
  | .mk _ _ _ _ _ o => o

/-- `WinRegKey.GetValue(name)`: the value of the given name, or `none`. -/
def RegKey.GetValue (k : RegKey) (n : String) : Option RegValue :=
  k.values.find? (fun v => v.name == n)

/-- `WinRegKey.GetSubkey(name)`: the immediate child key of the given
name, or `none`. -/
def RegKey.GetSubkey (k : RegKey) (n : String) : Option RegKey :=
  k.subkeys.find? (fun s => RegKey.name s == n)

mutual

/-- `TaskCachePlugin._GetIdValue`: yields the pair `(key, value)` for the
key's own value named `Id` (when present), then recurses into each
subkey in order. -/
def getIdValue : RegKey → List (RegKey × RegValue)
  | .mk n vs ks t p o =>
    (match RegKey.GetValue (.mk n vs ks t p o) "Id" with
      | some v => [(RegKey.mk n vs ks t p o, v)]
      | none => []) ++ getIdValueList ks

/-- `_GetIdValue` applied to a list of keys, concatenating the yields;
this is the shape of the nested `for` loops that consume the generator. -/
def getIdValueList : List RegKey → List (RegKey × RegValue)
  | [] => []
  | k :: ks => getIdValue k ++ getIdValueList ks

end

mutual

/-- The key itself followed by all keys strictly below it, in
depth-first preorder. -/
def descendants : RegKey → List RegKey
  | .mk n vs ks t p o => RegKey.mk n vs ks t p o :: descendantsList ks

/-- Depth-first preorder of a forest of keys. -/
def descendantsList : List RegKey → List RegKey
  | [] => []
  | k :: ks => descendants k ++ descendantsList ks

end

/-- Little-endian unsigned interpretation of a byte list (first byte is
least significant), as `construct`'s `ULInt32`/`ULInt64` read it. -/
def bytesToNatLE : List Nat → Nat
  | [] => 0
  | b :: bs => b % 256 + 256 * bytesToNatLE bs

/-- The record decoded by `_DYNAMIC_INFO_STRUCT`: `ULInt32('version')`,
`ULInt64('last_registered_time')`, `ULInt64('launch_time')`,
`Padding(8)` (read but never interpreted). -/
structure DynamicInfoRecord where
  version : Nat
  last_registered_time : Nat
  launch_time : Nat
deriving Repr, DecidableEq

/-- `_DYNAMIC_INFO_STRUCT.sizeof()` = 4 + 8 + 8 + 8. -/
def DYNAMIC_INFO_STRUCT_SIZE : Nat := 28

/-- `_DYNAMIC_INFO_STRUCT.parse`: sequential little-endian reads of
version ([0,4)), last_registered_time ([4,12)), launch_time ([12,20))
and 8 padding bytes ([20,28)); fails (raises in the source) when the
blob is too short for the 28 bytes it reads, ignores trailing bytes. -/
def parseDynamicInfo (b : List Nat) : Option DynamicInfoRecord :=
  if DYNAMIC_INFO_STRUCT_SIZE ≤ b.length then
    some
      { version := bytesToNatLE (b.take 4)
        last_registered_time := bytesToNatLE ((b.drop 4).take 8)
        launch_time := bytesToNatLE ((b.drop 12).take 8) }
  else
    none

/-- An event delivered to `parser_context.ProduceEvent`.
`registryEvent` is `windows_events.WindowsRegistryEvent(
key.last_written_timestamp, key.path, text_dict, offset=key.offset,
registry_type=registry_type)`; `taskCacheEvent` is `TaskCacheEvent(
timestamp, timestamp_description, task_name, task_identifier)`, whose
constructor sets `self.offset = 0` and stores no path and no registry
type. -/
inductive Event : Type where
  | registryEvent (timestamp : Nat) (path : String)
      (text_dict : List (String × String)) (offset : Nat)
      (registry_type : Option String) : Event
  | taskCacheEvent (timestamp : Nat) (timestamp_description : String)
      (task_name : String) (task_identifier : String) (offset : Nat) : Event
deriving Repr, DecidableEq

/-- Diagnostic strings issued through `logging.warning`. -/
def idSizeWarning : String := "[winreg_task_cache] unsupported Id value data size."

def dynamicInfoSizeWarning : String :=
  "[winreg_task_cache] unsupported DynamicInfo value data size."

def missingSubkeyWarning : String := "Task Cache is missing a Tasks or Tree sub key."

/-- Marker for the defensive `MalformedRecord` fault (a raise out of
`_DYNAMIC_INFO_STRUCT.parse` after the size gate); shown unreachable. -/
def malformedRecordFault : String := "MalformedRecord"

/-- Python dict assignment `d[k] = v`: any earlier binding of `k` is
replaced, `find?` on the result returns the latest value. -/
def dictInsert (d : List (String × String)) (k v : String) :
    List (String × String) :=
  d.filter (fun p => !(p.1 == k)) ++ [(k, v)]

/-- Python `d.get(k, default)`. -/
def dictGet (d : List (String × String)) (k default : String) : String :=
  match d.find? (fun p => p.1 == k) with
  | some p => p.2
  | none => default

/-- The first loop of `GetEntries` (lines 110–119): fold the
`(value_key, id_value)` stream into the `task_guids` dict, accepting a
pair only when `len(id_value.raw_data) == 78`, warning and skipping
otherwise; `task_guids[id_value.data] = value_key.name`. -/
def buildTaskGuids (d : List (String × String)) (w : List String) :
    List (RegKey × RegValue) → List (String × String) × List String
  | [] => (d, w)
  | (value_key, id_value) :: rest =>
    if id_value.raw_data.length = 78 then
      buildTaskGuids (dictInsert d id_value.data value_key.name) w rest
    else
      buildTaskGuids d (w ++ [idSizeWarning]) rest

/-- Per-subkey output of the second loop of `GetEntries`: produced
events, warnings, and the blobs handed to `_DYNAMIC_INFO_STRUCT.parse`
(the attempted decodes). -/
structure SubkeyResult where
  events : List Event
  warnings : List String
  attempts : List (List Nat)
deriving Repr, DecidableEq

/-- One iteration of the second loop of `GetEntries` (lines 121–157)
over a subkey of `Tasks`: look up `DynamicInfo` (skip silently when
absent), gate on the 28-byte size (warn and skip otherwise), parse,
then emit the generic `WindowsRegistryEvent` followed by a
`TaskCacheEvent` for each nonzero timestamp. -/
def processTaskSubkey (key : RegKey) (registry_type : Option String)
    (task_guids : List (String × String)) (sub_key : RegKey) : SubkeyResult :=
  match sub_key.GetValue "DynamicInfo" with
  | none => ⟨[], [], []⟩
  | some dynamic_info_value =>
    if dynamic_info_value.raw_data.length ≠ DYNAMIC_INFO_STRUCT_SIZE then
      ⟨[], [dynamicInfoSizeWarning], []⟩
    else
      match parseDynamicInfo dynamic_info_value.raw_data with
      | none => ⟨[], [malformedRecordFault], [dynamic_info_value.raw_data]⟩
      | some dynamic_info =>
        let name := dictGet task_guids sub_key.name sub_key.name
        let text_dict : List (String × String) :=
          [("Task: " ++ name, "[ID: " ++ sub_key.name ++ "]")]
        ⟨Event.registryEvent key.last_written_timestamp key.path text_dict
            key.offset registry_type ::
          ((if dynamic_info.last_registered_time ≠ 0 then
              [Event.taskCacheEvent dynamic_info.last_registered_time
                "Last registered time" name sub_key.name 0]
            else []) ++
            (if dynamic_info.launch_time ≠ 0 then
              [Event.taskCacheEvent dynamic_info.launch_time
                "Launch time" name sub_key.name 0]
            else [])),
          [], [dynamic_info_value.raw_data]⟩

/-- The full output of `TaskCachePlugin.GetEntries`. -/
structure Result where
  events : List Event
  warnings : List String
  attempts : List (List Nat)
deriving Repr, DecidableEq

/-- `TaskCachePlugin.GetEntries(parser_context, key, registry_type)`:
require the `Tasks` and `Tree` subkeys (warn once and return with no
output otherwise), build `task_guids` from the `Tree` traversal, then
process each subkey of `Tasks` in order. -/
def GetEntries (key : RegKey) (registry_type : Option String) : Result :=
  match key.GetSubkey "Tasks", key.GetSubkey "Tree" with
  | some tasks_key, some tree_key =>
    let gw := buildTaskGuids [] [] (getIdValueList tree_key.subkeys)
    let rs := tasks_key.subkeys.map (processTaskSubkey key registry_type gw.1)
    { events := (rs.map SubkeyResult.events).flatten
      warnings := gw.2 ++ (rs.map SubkeyResult.warnings).flatten
      attempts := (rs.map SubkeyResult.attempts).flatten }
  | _, _ => { events := [], warnings := [missingSubkeyWarning], attempts := [] }

/-! ## Helper definitions and lemmas -/

/-- `true` exactly on the generic `WindowsRegistryEvent` records. -/
def isGenericEvent : Event → Bool
  | .registryEvent _ _ _ _ _ => true
  | .taskCacheEvent _ _ _ _ _ => false

/-- Number of generic key-visit records in an event list. -/
def countGeneric (es : List Event) : Nat := es.countP isGenericEvent

/-- A task subkey has a `DynamicInfo` value whose raw data passes the
28-byte size gate. -/
def hasSupportedDynamicInfo (sub : RegKey) : Bool :=
  match RegKey.GetValue sub "DynamicInfo" with
  | some v => v.raw_data.length == DYNAMIC_INFO_STRUCT_SIZE
  | none => false

theorem parseDynamicInfo_of_length (b : List Nat) (h : b.length = 28) :
    parseDynamicInfo b = some
      { version := bytesToNatLE (b.take 4)
        last_registered_time := bytesToNatLE ((b.drop 4).take 8)
        launch_time := bytesToNatLE ((b.drop 12).take 8) } := by
  unfold parseDynamicInfo DYNAMIC_INFO_STRUCT_SIZE
  rw [h]
  simp

theorem processTaskSubkey_of_no_value (key : RegKey) (rt : Option String)
    (g : List (String × String)) (sub : RegKey)
    (h : sub.GetValue "DynamicInfo" = none) :
    processTaskSubkey key rt g sub = ⟨[], [], []⟩ := by
  unfold processTaskSubkey
  rw [h]

theorem processTaskSubkey_of_bad_size (key : RegKey) (rt : Option String)
    (g : List (String × String)) (sub : RegKey) (v : RegValue)
    (h : sub.GetValue "DynamicInfo" = some v)
    (hl : v.raw_data.length ≠ 28) :
    processTaskSubkey key rt g sub = ⟨[], [dynamicInfoSizeWarning], []⟩ := by
  unfold processTaskSubkey
  rw [h]
  simp [DYNAMIC_INFO_STRUCT_SIZE, hl]

theorem processTaskSubkey_of_good_size (key : RegKey) (rt : Option String)
    (g : List (String × String)) (sub : RegKey) (v : RegValue)
    (di : DynamicInfoRecord)
    (h : sub.GetValue "DynamicInfo" = some v)
    (hl : v.raw_data.length = 28)
    (hp : parseDynamicInfo v.raw_data = some di) :
    processTaskSubkey key rt g sub =
      ⟨Event.registryEvent key.last_written_timestamp key.path
          [("Task: " ++ dictGet g sub.name sub.name,
            "[ID: " ++ sub.name ++ "]")] key.offset rt ::
        ((if di.last_registered_time ≠ 0 then
            [Event.taskCacheEvent di.last_registered_time
              "Last registered time" (dictGet g sub.name sub.name) sub.name 0]
          else []) ++
          (if di.launch_time ≠ 0 then
            [Event.taskCacheEvent di.launch_time "Launch time"
              (dictGet g sub.name sub.name) sub.name 0]
          else [])),
        [], [v.raw_data]⟩ := by
  unfold processTaskSubkey
  rw [h]
  simp only [DYNAMIC_INFO_STRUCT_SIZE, hl, ne_eq, not_true_eq_false, if_false,
    ite_false, if_neg, hp]

theorem find?_filter_out_key (d : List (String × String)) (k : String) :
    (d.filter (fun p => !(p.1 == k))).find? (fun p => p.1 == k) = none := by
  rw [List.find?_eq_none]
  intro x hx
  have hk := List.of_mem_filter hx
  simp only [Bool.not_eq_eq_eq_not, Bool.not_true, beq_eq_false_iff_ne, ne_eq] at hk
  simp [hk]

theorem find?_filter_other_key (d : List (String × String)) (k k' : String)
    (h : k' ≠ k) :
    (d.filter (fun p => !(p.1 == k))).find? (fun p => p.1 == k') =
      d.find? (fun p => p.1 == k') := by
  induction d with
  | nil => rfl
  | cons p rest ih =>
    by_cases hp : p.1 = k
    · rw [List.filter_cons_of_neg (by simp [hp]), ih,
        List.find?_cons_of_neg _ (by simp [hp, Ne.symm h])]
    · rw [List.filter_cons_of_pos (by simp [hp])]
      by_cases hq : p.1 = k'
      · rw [List.find?_cons_of_pos _ (by simp [hq]),
          List.find?_cons_of_pos _ (by simp [hq])]
      · rw [List.find?_cons_of_neg _ (by simp [hq]),
          List.find?_cons_of_neg _ (by simp [hq]), ih]

theorem dictGet_dictInsert (d : List (String × String)) (k v k' dflt : String) :
    dictGet (dictInsert d k v) k' dflt = if k' = k then v else dictGet d k' dflt := by
  unfold dictGet dictInsert
  rw [List.find?_append]
  by_cases h : k' = k
  · subst h
    rw [find?_filter_out_key]
    simp [List.find?]
  · rw [find?_filter_other_key d k k' h,
      List.find?_cons_of_neg _ (by simp [Ne.symm h])]
    cases hf : d.find? (fun p => p.1 == k') with
    | some p => simp [h]
    | none => simp [h]

theorem mem_dictInsert (d : List (String × String)) (k v : String)
    (e : String × String) (h : e ∈ dictInsert d k v) : e ∈ d ∨ e = (k, v) := by
  unfold dictInsert at h
  rcases List.mem_append.mp h with h' | h'
  · exact Or.inl (List.mem_of_mem_filter h')
  · exact Or.inr (List.mem_singleton.mp h')

/-- The name recorded by the last accepted (78-byte) `Id` pair whose
interpreted data equals `k` — the specification-side description of the
identifier-map consumption rule, compared against `buildTaskGuids`. -/
def lastAcceptedName : List (RegKey × RegValue) → String → Option String
  | [], _ => none
  | p :: rest, k =>
    match lastAcceptedName rest k with
    | some n => some n
    | none =>
      if p.2.raw_data.length = 78 ∧ p.2.data = k then some p.1.name else none

theorem dictGet_buildTaskGuids (pairs : List (RegKey × RegValue)) :
    ∀ (d : List (String × String)) (w : List String) (k dflt : String),
      dictGet (buildTaskGuids d w pairs).1 k dflt =
        match lastAcceptedName pairs k with
        | some n => n
        | none => dictGet d k dflt := by
  induction pairs with
  | nil => intro d w k dflt; rfl
  | cons p rest ih =>
    intro d w k dflt
    obtain ⟨vk, iv⟩ := p
    by_cases hacc : iv.raw_data.length = 78
    · rw [show buildTaskGuids d w ((vk, iv) :: rest) =
          buildTaskGuids (dictInsert d iv.data vk.name) w rest by
            simp [buildTaskGuids, hacc]]
      rw [ih]
      cases hlast : lastAcceptedName rest k with
      | some n => simp [lastAcceptedName, hlast]
      | none =>
        by_cases hk : iv.data = k
        · subst hk
          simp [lastAcceptedName, hlast, hacc, dictGet_dictInsert]
        · simp [lastAcceptedName, hlast, hacc, hk, dictGet_dictInsert,
            Ne.symm hk]
    · rw [show buildTaskGuids d w ((vk, iv) :: rest) =
          buildTaskGuids d (w ++ [idSizeWarning]) rest by
            simp [buildTaskGuids, hacc]]
      rw [ih]
      cases hlast : lastAcceptedName rest k with
      | some n => simp [lastAcceptedName, hlast]
      | none => simp [lastAcceptedName, hlast, hacc]

theorem buildTaskGuids_warnings (pairs : List (RegKey × RegValue)) :
    ∀ (d : List (String × String)) (w : List String),
      (buildTaskGuids d w pairs).2 =
        w ++ List.replicate
          (pairs.countP (fun p => !(p.2.raw_data.length == 78)))
          idSizeWarning := by
  induction pairs with
  | nil => intro d w; simp [buildTaskGuids]
  | cons p rest ih =>
    intro d w
    obtain ⟨vk, iv⟩ := p
    by_cases hacc : iv.raw_data.length = 78
    · rw [show buildTaskGuids d w ((vk, iv) :: rest) =
          buildTaskGuids (dictInsert d iv.data vk.name) w rest by
            simp [buildTaskGuids, hacc]]
      rw [ih]
      simp [List.countP_cons, hacc]
    · rw [show buildTaskGuids d w ((vk, iv) :: rest) =
          buildTaskGuids d (w ++ [idSizeWarning]) rest by
            simp [buildTaskGuids, hacc]]
      rw [ih]
      simp [List.countP_cons, hacc, List.replicate_succ, List.append_assoc]

theorem mem_buildTaskGuids (pairs : List (RegKey × RegValue)) :
    ∀ (d : List (String × String)) (w : List String)
      (e : String × String), e ∈ (buildTaskGuids d w pairs).1 →
      e ∈ d ∨ ∃ p ∈ pairs,
        p.2.raw_data.length = 78 ∧ p.2.data = e.1 ∧ p.1.name = e.2 := by
  induction pairs with
  | nil => intro d w e he; exact Or.inl he
  | cons p rest ih =>
    intro d w e he
    obtain ⟨vk, iv⟩ := p
    by_cases hacc : iv.raw_data.length = 78
    · rw [show buildTaskGuids d w ((vk, iv) :: rest) =
          buildTaskGuids (dictInsert d iv.data vk.name) w rest by
            simp [buildTaskGuids, hacc]] at he
      rcases ih _ _ _ he with hd | ⟨q, hq, hq78, hqd, hqn⟩
      · rcases mem_dictInsert _ _ _ _ hd with hd' | rfl
        · exact Or.inl hd'
        · exact Or.inr ⟨(vk, iv), List.mem_cons_self _ _, hacc, rfl, rfl⟩
      · exact Or.inr ⟨q, List.mem_cons_of_mem _ hq, hq78, hqd, hqn⟩
    · rw [show buildTaskGuids d w ((vk, iv) :: rest) =
          buildTaskGuids d (w ++ [idSizeWarning]) rest by
            simp [buildTaskGuids, hacc]] at he
      rcases ih _ _ _ he with hd | ⟨q, hq, hq78, hqd, hqn⟩
      · exact Or.inl hd
      · exact Or.inr ⟨q, List.mem_cons_of_mem _ hq, hq78, hqd, hqn⟩

theorem GetEntries_of_subkeys (key : RegKey) (rt : Option String)
    (tasks_key tree_key : RegKey)
    (hT : key.GetSubkey "Tasks" = some tasks_key)
    (hR : key.GetSubkey "Tree" = some tree_key) :
    GetEntries key rt =
      { events := (tasks_key.subkeys.map (fun s =>
          (processTaskSubkey key rt
            (buildTaskGuids [] [] (getIdValueList tree_key.subkeys)).1
            s).events)).flatten
        warnings := (buildTaskGuids [] [] (getIdValueList tree_key.subkeys)).2 ++
          (tasks_key.subkeys.map (fun s =>
            (processTaskSubkey key rt
              (buildTaskGuids [] [] (getIdValueList tree_key.subkeys)).1
              s).warnings)).flatten
        attempts := (tasks_key.subkeys.map (fun s =>
          (processTaskSubkey key rt
            (buildTaskGuids [] [] (getIdValueList tree_key.subkeys)).1
            s).attempts)).flatten } := by
  unfold GetEntries
  rw [hT, hR]
  simp only [List.map_map]
  rfl

theorem GetEntries_of_missing (key : RegKey) (rt : Option String)
    (h : key.GetSubkey "Tasks" = none ∨ key.GetSubkey "Tree" = none) :
    GetEntries key rt = { events := [], warnings := [missingSubkeyWarning], attempts := [] } := by
  unfold GetEntries
  split
  · rename_i tasks_key tree_key hT hR
    rcases h with h | h <;> simp_all
  · rfl

theorem countGeneric_flatten (l : List (List Event)) :
    countGeneric l.flatten = (l.map countGeneric).sum := by
  induction l with
  | nil => rfl
  | cons es rest ih =>
    simp only [List.flatten_cons, countGeneric, List.countP_append, List.map_cons,
      List.sum_cons] at ih ⊢
    rw [ih]

theorem countGeneric_processTaskSubkey (key : RegKey) (rt : Option String)
    (g : List (String × String)) (sub : RegKey) :
    countGeneric (processTaskSubkey key rt g sub).events =
      if hasSupportedDynamicInfo sub then 1 else 0 := by
  cases h : RegKey.GetValue sub "DynamicInfo" with
  | none =>
    rw [processTaskSubkey_of_no_value key rt g sub h]
    simp [countGeneric, hasSupportedDynamicInfo, h]
  | some v =>
    have hs : hasSupportedDynamicInfo sub = (v.raw_data.length == 28) := by
      simp [hasSupportedDynamicInfo, h, DYNAMIC_INFO_STRUCT_SIZE]
    by_cases hl : v.raw_data.length = 28
    · rw [processTaskSubkey_of_good_size key rt g sub v _ h hl
        (parseDynamicInfo_of_length v.raw_data hl), hs]
      simp only [hl, beq_self_eq_true, if_true, countGeneric, List.countP_cons,
        List.countP_append]
      split_ifs <;> simp_all [List.countP_nil, List.countP_cons, isGenericEvent]
    · rw [processTaskSubkey_of_bad_size key rt g sub v h hl, hs]
      simp [countGeneric, hl]

theorem sum_map_ite_one (l : List RegKey) (p : RegKey → Bool) :
    (l.map (fun s => if p s then 1 else 0)).sum = l.countP p := by
  induction l with
  | nil => rfl
  | cons a rest ih =>
    simp only [List.map_cons, List.sum_cons, List.countP_cons, ih]
    split_ifs <;> omega

mutual

theorem getIdValue_eq_filterMap : ∀ k : RegKey,
    getIdValue k = (descendants k).filterMap
      (fun kk => (RegKey.GetValue kk "Id").map (fun v => (kk, v)))
  | .mk n vs ks t p o => by
    rw [getIdValue, descendants, List.filterMap_cons,
      getIdValueList_eq_filterMap ks]
    cases hv : RegKey.GetValue (.mk n vs ks t p o) "Id" <;> simp [hv]

theorem getIdValueList_eq_filterMap : ∀ ks : List RegKey,
    getIdValueList ks = (descendantsList ks).filterMap
      (fun kk => (RegKey.GetValue kk "Id").map (fun v => (kk, v)))
  | [] => rfl
  | k :: ks => by
    rw [getIdValueList, descendantsList, List.filterMap_append,
      getIdValue_eq_filterMap k, getIdValueList_eq_filterMap ks]

end

theorem mem_processTaskSubkey_events (key : RegKey) (rt : Option String)
    (g : List (String × String)) (sub : RegKey) (e : Event)
    (he : e ∈ (processTaskSubkey key rt g sub).events) :
    (∃ td, e = Event.registryEvent key.last_written_timestamp key.path td
        key.offset rt) ∨
    (∃ t d nm, e = Event.taskCacheEvent t d nm sub.name 0) := by
  cases h : RegKey.GetValue sub "DynamicInfo" with
  | none =>
    rw [processTaskSubkey_of_no_value key rt g sub h] at he
    simp at he
  | some v =>
    by_cases hl : v.raw_data.length = 28
    · rw [processTaskSubkey_of_good_size key rt g sub v _ h hl
        (parseDynamicInfo_of_length v.raw_data hl)] at he
      simp only [List.mem_cons, List.mem_append] at he
      rcases he with rfl | he
      · exact Or.inl ⟨_, rfl⟩
      · rcases he with he | he <;> rw [List.mem_ite_nil_right] at he <;>
          rcases he with ⟨-, he⟩ <;> rw [List.mem_singleton] at he <;>
          exact Or.inr ⟨_, _, _, he⟩
    · rw [processTaskSubkey_of_bad_size key rt g sub v h hl] at he
      simp at he

theorem processTaskSubkey_attempts (key : RegKey) (rt : Option String)
    (g : List (String × String)) (sub : RegKey) :
    ∀ b ∈ (processTaskSubkey key rt g sub).attempts,
      b.length = 28 ∧ (parseDynamicInfo b).isSome = true := by
  intro b hb
  cases h : RegKey.GetValue sub "DynamicInfo" with
  | none =>
    rw [processTaskSubkey_of_no_value key rt g sub h] at hb
    simp at hb
  | some v =>
    by_cases hl : v.raw_data.length = 28
    · rw [processTaskSubkey_of_good_size key rt g sub v _ h hl
        (parseDynamicInfo_of_length v.raw_data hl)] at hb
      rw [List.mem_singleton] at hb
      subst hb
      exact ⟨hl, by rw [parseDynamicInfo_of_length _ hl]; rfl⟩
    · rw [processTaskSubkey_of_bad_size key rt g sub v h hl] at hb
      simp at hb

theorem processTaskSubkey_warnings (key : RegKey) (rt : Option String)
    (g : List (String × String)) (sub : RegKey) :
    (processTaskSubkey key rt g sub).warnings = [] ∨
    (processTaskSubkey key rt g sub).warnings = [dynamicInfoSizeWarning] := by
  cases h : RegKey.GetValue sub "DynamicInfo" with
  | none =>
    rw [processTaskSubkey_of_no_value key rt g sub h]
    exact Or.inl rfl
  | some v =>
    by_cases hl : v.raw_data.length = 28
    · rw [processTaskSubkey_of_good_size key rt g sub v _ h hl
        (parseDynamicInfo_of_length v.raw_data hl)]
      exact Or.inl rfl
    · rw [processTaskSubkey_of_bad_size key rt g sub v h hl]
      exact Or.inr rfl

/-! ## Concrete inputs -/

/-- A 28-byte `DynamicInfo` blob: version 1, last_registered_time 100,
launch_time 0. -/
def blobLastReg : List Nat :=
  [1, 0, 0, 0,
   100, 0, 0, 0, 0, 0, 0, 0,
   0, 0, 0, 0, 0, 0, 0, 0,
   0, 0, 0, 0, 0, 0, 0, 0]

/-- A 30-byte blob (unsupported `DynamicInfo` size). -/
def blob30 : List Nat :=
  [1, 0, 0, 0,
   100, 0, 0, 0, 0, 0, 0, 0,
   0, 0, 0, 0, 0, 0, 0, 0,
   0, 0, 0, 0, 0, 0, 0, 0, 0, 0]

/-- A task subkey with no `DynamicInfo` value. -/
def subNoDyn : RegKey := .mk "TaskIdA" [] [] 0 "" 0

/-- A task subkey with a valid 28-byte `DynamicInfo` value. -/
def subGoodDyn : RegKey :=
  .mk "TaskIdB" [⟨"DynamicInfo", "", blobLastReg⟩] [] 0 "" 0

/-- A task subkey with a 30-byte `DynamicInfo` value. -/
def subBadDyn : RegKey :=
  .mk "TaskIdC" [⟨"DynamicInfo", "", blob30⟩] [] 0 "" 0

/-- A `Tree` node declaring `Id` with data `TaskIdB` (78 raw bytes). -/
def treeNodeB : RegKey :=
  .mk "MyTask" [⟨"Id", "TaskIdB", List.replicate 78 0⟩] [] 0 "" 0

/-- Container whose single task subkey lacks `DynamicInfo`. -/
def containerA : RegKey :=
  .mk "TaskCache" []
    [.mk "Tasks" [] [subNoDyn] 0 "" 0, .mk "Tree" [] [] 0 "" 0]
    111 "HKLM-Software-TaskCache" 7

/-- Container with one resolvable task carrying a valid `DynamicInfo`. -/
def containerB : RegKey :=
  .mk "TaskCache" []
    [.mk "Tasks" [] [subGoodDyn] 0 "" 0, .mk "Tree" [] [treeNodeB] 0 "" 0]
    111 "HKLM-Software-TaskCache" 7

/-- Container with neither a `Tasks` nor a `Tree` subkey. -/
def containerC : RegKey := .mk "TaskCache" [] [] 111 "HKLM-Software-TaskCache" 7

/-- Container whose single task subkey has a 30-byte `DynamicInfo`. -/
def containerD : RegKey :=
  .mk "TaskCache" []
    [.mk "Tasks" [] [subBadDyn] 0 "" 0, .mk "Tree" [] [] 0 "" 0]
    111 "HKLM-Software-TaskCache" 7

/-- Two tree nodes declaring 78-byte `Id` values with the same
interpreted data but different raw bytes. -/
def idPairsDup : List (RegKey × RegValue) :=
  [(.mk "NodeA" [] [] 0 "" 0, ⟨"Id", "TaskIdB", List.replicate 78 0⟩),
   (.mk "NodeB" [] [] 0 "" 0, ⟨"Id", "TaskIdB", List.replicate 78 1⟩)]

/-! ## Claims -/

/-- C4: If the container key lacks a `Tasks` child key or lacks a `Tree`
child key (or both), `GetEntries` emits exactly zero output records,
reports exactly one diagnostic ("Task Cache is missing a Tasks or Tree
sub key"), and (being a total function) terminates without raising. -/
theorem c4_missing_tasks_or_tree (key : RegKey) (rt : Option String)
    (h : key.GetSubkey "Tasks" = none ∨ key.GetSubkey "Tree" = none) :
    (GetEntries key rt).events = [] ∧
    (GetEntries key rt).warnings = [missingSubkeyWarning] := by
  rw [GetEntries_of_missing key rt h]
  exact ⟨rfl, rfl⟩

/-- Witness for C4: a container with no subkeys at all. -/
theorem c4_missing_tasks_or_tree_witness :
    (GetEntries containerC none).events = [] ∧
    (GetEntries containerC none).warnings = [missingSubkeyWarning] :=
  c4_missing_tasks_or_tree containerC none (Or.inl rfl)

/-- C9: `_GetIdValue` yields exactly the `(key, Id-value)` pair of every
key of the subtree (the given key and every descendant at any depth)
that carries a value named `Id`, in depth-first preorder: a key's own
pair comes before any pair from its children.  The traversal is a pure
function of the key (no mutation). -/
theorem c9_id_traversal (k : RegKey) :
    getIdValue k = (descendants k).filterMap
      (fun kk => (RegKey.GetValue kk "Id").map (fun v => (kk, v))) :=
  getIdValue_eq_filterMap k

/-- C10: every blob passing the 28-byte gate decodes structurally
(little-endian fields at [0,4), [4,12), [12,20)) without failing, and
in consequence the defensive `MalformedRecord` fault is unreachable in
`GetEntries` on every input. -/
theorem c10_malformed_record_unreachable :
    (∀ b : List Nat, b.length = 28 →
      parseDynamicInfo b = some
        { version := bytesToNatLE (b.take 4)
          last_registered_time := bytesToNatLE ((b.drop 4).take 8)
          launch_time := bytesToNatLE ((b.drop 12).take 8) }) ∧
    (∀ (key : RegKey) (rt : Option String),
      malformedRecordFault ∉ (GetEntries key rt).warnings) := by
  refine ⟨fun b hb => parseDynamicInfo_of_length b hb, fun key rt => ?_⟩
  cases hT : key.GetSubkey "Tasks" with
  | none =>
    rw [GetEntries_of_missing key rt (Or.inl hT)]
    simp [malformedRecordFault, missingSubkeyWarning]
  | some tasks_key =>
    cases hR : key.GetSubkey "Tree" with
    | none =>
      rw [GetEntries_of_missing key rt (Or.inr hR)]
      simp [malformedRecordFault, missingSubkeyWarning]
    | some tree_key =>
      rw [GetEntries_of_subkeys key rt tasks_key tree_key hT hR]
      intro hmem
      simp only [List.mem_append] at hmem
      rcases hmem with hmem | hmem
      · rw [buildTaskGuids_warnings] at hmem
        simp only [List.nil_append, List.mem_replicate] at hmem
        exact absurd hmem.2 (by simp [malformedRecordFault, idSizeWarning])
      · rw [List.mem_flatten] at hmem
        obtain ⟨l, hl, hml⟩ := hmem
        rw [List.mem_map] at hl
        obtain ⟨s, -, rfl⟩ := hl
        rcases processTaskSubkey_warnings key rt _ s with hw | hw <;>
          rw [hw] at hml
        · simp at hml
        · rw [List.mem_singleton] at hml
          exact absurd hml
            (by simp [malformedRecordFault, dynamicInfoSizeWarning])

/-- Witness for C10: the 28-byte example blob decodes to
(version 1, last registered 100, launch 0); no `MalformedRecord` on a
populated container. -/
theorem c10_malformed_record_unreachable_witness :
    parseDynamicInfo blobLastReg = some ⟨1, 100, 0⟩ ∧
    malformedRecordFault ∉ (GetEntries containerB (some "SOFTWARE")).warnings :=
  ⟨(c10_malformed_record_unreachable.1 blobLastReg (by decide)).trans (by decide),
    c10_malformed_record_unreachable.2 containerB (some "SOFTWARE")⟩

/-- Counterexample to C5 as stated: both `Id` values of `idPairsDup` are
accepted (78 raw bytes each) and their raw bytes differ, yet the built
map holds a single entry — the later pair overwrote the earlier one
because the map is keyed by the values' interpreted `data` (here equal),
not by their raw identifier bytes (here distinct). -/
theorem c5_counterexample :
    (buildTaskGuids [] [] idPairsDup).1 = [("TaskIdB", "NodeB")] ∧
    (∀ p ∈ idPairsDup, p.2.raw_data.length = 78) ∧
    ¬(List.replicate 78 (0 : Nat) = List.replicate 78 1) :=
  ⟨by decide, by decide, by decide⟩

/-- C5 (amended): the identifier map built during correlation is keyed
by the interpreted data string (`id_value.data`) of each accepted `Id`
value (the 78-byte size gate applies to the raw bytes), with the
declaring tree-node key's name as the mapped value; when two accepted
pairs share the same data, the pair yielded later in traversal
overwrites the earlier one — a lookup returns the last accepted
declaration's name, or the default. -/
theorem c5_map_keyed_by_data (pairs : List (RegKey × RegValue))
    (k dflt : String) :
    dictGet (buildTaskGuids [] [] pairs).1 k dflt =
      match lastAcceptedName pairs k with
      | some n => n
      | none => dflt := by
  rw [dictGet_buildTaskGuids]
  cases h : lastAcceptedName pairs k <;> simp [h, dictGet]

/-- C7: an `Id` pair contributes a map entry only when its raw byte
length is exactly 78; every other pair instead contributes exactly one
"unsupported Id value data size" diagnostic (one per rejected pair, in
traversal order — traversal of the rest continues), and every entry of
the built map is derived from some accepted 78-byte pair. -/
theorem c7_id_size_policy (pairs : List (RegKey × RegValue)) :
    (buildTaskGuids [] [] pairs).2 =
      List.replicate (pairs.countP (fun p => !(p.2.raw_data.length == 78)))
        idSizeWarning ∧
    ∀ e ∈ (buildTaskGuids [] [] pairs).1, ∃ p ∈ pairs,
      p.2.raw_data.length = 78 ∧ p.2.data = e.1 ∧ p.1.name = e.2 := by
  constructor
  · rw [buildTaskGuids_warnings]
    simp
  · intro e he
    rcases mem_buildTaskGuids pairs [] [] e he with h | h
    · simp at h
    · exact h

/-- Mixed accepted/rejected pair list used by the C7 witness. -/
def idPairsMixed : List (RegKey × RegValue) :=
  idPairsDup ++ [(.mk "NodeC" [] [] 0 "" 0, ⟨"Id", "BadId", [0]⟩)]

/-- Witness for C7: on `idPairsMixed` the rejected 1-byte pair yields
exactly one diagnostic, and the surviving entry traces back to an
accepted 78-byte pair. -/
theorem c7_id_size_policy_witness :
    (buildTaskGuids [] [] idPairsMixed).2 = [idSizeWarning] ∧
    ∃ p ∈ idPairsMixed, p.2.raw_data.length = 78 ∧
      p.2.data = ("TaskIdB", "NodeB").1 ∧ p.1.name = ("TaskIdB", "NodeB").2 :=
  ⟨((c7_id_size_policy idPairsMixed).1).trans (by decide),
    (c7_id_size_policy idPairsMixed).2 ("TaskIdB", "NodeB") (by decide)⟩

/-- Counterexample to C1 as stated: in `containerA` the `Tasks` key has
exactly one immediate child (which lacks a `DynamicInfo` value), yet
`GetEntries` emits zero events — no generic "key visited" observation
is produced, because the loop `continue`s before the generic event is
built whenever `DynamicInfo` is absent (and likewise on an unsupported
size, cf. `containerD`). -/
theorem c1_counterexample :
    ((RegKey.GetSubkey containerA "Tasks").map
      (fun k => k.subkeys.length)) = some 1 ∧
    (GetEntries containerA (some "SOFTWARE")).events = [] ∧
    (GetEntries containerD (some "SOFTWARE")).events = [] :=
  ⟨rfl, by decide, by decide⟩

/-- C1 (amended): exactly one generic "key visited" observation —
carrying the container key's last-written timestamp, path, byte offset
and the resolved-name/bracketed-identifier display pair — is emitted
per immediate `Tasks` child whose `DynamicInfo` value is present with
supported (28-byte) size; a child without `DynamicInfo` or with an
unsupported size emits no generic observation. -/
theorem c1_generic_event_per_supported_subkey (key : RegKey)
    (rt : Option String) (tasks_key tree_key : RegKey)
    (hT : key.GetSubkey "Tasks" = some tasks_key)
    (hR : key.GetSubkey "Tree" = some tree_key) :
    countGeneric (GetEntries key rt).events =
      tasks_key.subkeys.countP hasSupportedDynamicInfo ∧
    ∀ (g : List (String × String)) (sub : RegKey) (v : RegValue),
      RegKey.GetValue sub "DynamicInfo" = some v → v.raw_data.length = 28 →
      (processTaskSubkey key rt g sub).events.head? =
        some (Event.registryEvent key.last_written_timestamp key.path
          [("Task: " ++ dictGet g sub.name sub.name,
            "[ID: " ++ sub.name ++ "]")] key.offset rt) := by
  constructor
  · rw [GetEntries_of_subkeys key rt tasks_key tree_key hT hR]
    show countGeneric (List.map _ tasks_key.subkeys).flatten = _
    rw [countGeneric_flatten, List.map_map]
    have hcong : List.map
        (countGeneric ∘ fun s => (processTaskSubkey key rt
          (buildTaskGuids [] [] (getIdValueList tree_key.subkeys)).1 s).events)
        tasks_key.subkeys =
        List.map (fun s => if hasSupportedDynamicInfo s then 1 else 0)
          tasks_key.subkeys := by
      apply List.map_congr_left
      intro s _
      exact countGeneric_processTaskSubkey key rt _ s
    rw [hcong, sum_map_ite_one]
  · intro g sub v h hl
    rw [processTaskSubkey_of_good_size key rt g sub v _ h hl
      (parseDynamicInfo_of_length v.raw_data hl)]
    rfl

/-- Witness for C1 (amended): `containerB` has one supported task
subkey and its output holds exactly one generic observation. -/
theorem c1_generic_event_per_supported_subkey_witness :
    countGeneric (GetEntries containerB (some "SOFTWARE")).events = 1 ∧
    (processTaskSubkey containerB (some "SOFTWARE")
        [("TaskIdB", "MyTask")] subGoodDyn).events.head? =
      some (Event.registryEvent 111 "HKLM-Software-TaskCache"
        [("Task: MyTask", "[ID: TaskIdB]")] 7 (some "SOFTWARE")) :=
  ⟨((c1_generic_event_per_supported_subkey containerB (some "SOFTWARE")
      _ _ rfl rfl).1).trans (by decide),
    ((c1_generic_event_per_supported_subkey containerB (some "SOFTWARE")
      _ _ rfl rfl).2 [("TaskIdB", "MyTask")] subGoodDyn
      ⟨"DynamicInfo", "", blobLastReg⟩ rfl (by decide)).trans (by decide)⟩

/-- C2: for a task subkey bearing a `DynamicInfo` value, the structural
decode is attempted exactly when the blob length is 28 (and then it
succeeds); on any other length no decode is attempted, exactly one
"unsupported DynamicInfo value data size" diagnostic is reported and
the subkey emits no observations at all; and at the `GetEntries` level
each `Tasks` child is processed independently (the output is the
concatenation over the children, so siblings continue), with every
attempted decode made on a 28-byte blob and succeeding. -/
theorem c2_decode_size_gate :
    (∀ (key : RegKey) (rt : Option String) (g : List (String × String))
      (sub : RegKey) (v : RegValue),
      RegKey.GetValue sub "DynamicInfo" = some v →
      ((v.raw_data.length = 28 →
        (processTaskSubkey key rt g sub).attempts = [v.raw_data] ∧
        (parseDynamicInfo v.raw_data).isSome = true ∧
        (processTaskSubkey key rt g sub).warnings = []) ∧
      (v.raw_data.length ≠ 28 →
        (processTaskSubkey key rt g sub).attempts = [] ∧
        (processTaskSubkey key rt g sub).events = [] ∧
        (processTaskSubkey key rt g sub).warnings = [dynamicInfoSizeWarning]))) ∧
    (∀ (key : RegKey) (rt : Option String) (tasks_key tree_key : RegKey),
      key.GetSubkey "Tasks" = some tasks_key →
      key.GetSubkey "Tree" = some tree_key →
      (GetEntries key rt).attempts =
        (tasks_key.subkeys.map (fun s => (processTaskSubkey key rt
          (buildTaskGuids [] [] (getIdValueList tree_key.subkeys)).1
          s).attempts)).flatten ∧
      ∀ b ∈ (GetEntries key rt).attempts,
        b.length = 28 ∧ (parseDynamicInfo b).isSome = true) := by
  constructor
  · intro key rt g sub v h
    constructor
    · intro hl
      rw [processTaskSubkey_of_good_size key rt g sub v _ h hl
        (parseDynamicInfo_of_length v.raw_data hl)]
      exact ⟨rfl, by rw [parseDynamicInfo_of_length v.raw_data hl]; rfl, rfl⟩
    · intro hl
      rw [processTaskSubkey_of_bad_size key rt g sub v h hl]
      exact ⟨rfl, rfl, rfl⟩
  · intro key rt tasks_key tree_key hT hR
    rw [GetEntries_of_subkeys key rt tasks_key tree_key hT hR]
    refine ⟨rfl, fun b hb => ?_⟩
    have hb' : b ∈ (tasks_key.subkeys.map (fun s => (processTaskSubkey key rt
        (buildTaskGuids [] [] (getIdValueList tree_key.subkeys)).1
        s).attempts)).flatten := hb
    rw [List.mem_flatten] at hb'
    obtain ⟨l, hl, hbl⟩ := hb'
    rw [List.mem_map] at hl
    obtain ⟨s, -, rfl⟩ := hl
    exact processTaskSubkey_attempts key rt _ s b hbl

/-- Witness for C2: the 30-byte blob of `subBadDyn` yields one size
diagnostic and no events; the 28-byte blob of `subGoodDyn` is the one
attempted decode of `containerB` and it succeeds. -/
theorem c2_decode_size_gate_witness :
    ((processTaskSubkey containerD (some "SOFTWARE") [] subBadDyn).events = [] ∧
      (processTaskSubkey containerD (some "SOFTWARE") [] subBadDyn).warnings =
        [dynamicInfoSizeWarning]) ∧
    (GetEntries containerB (some "SOFTWARE")).attempts = [blobLastReg] ∧
    blobLastReg.length = 28 ∧ (parseDynamicInfo blobLastReg).isSome = true :=
  ⟨(((c2_decode_size_gate.1 containerD (some "SOFTWARE") [] subBadDyn
        ⟨"DynamicInfo", "", blob30⟩ rfl).2 (by decide))).2,
    ((c2_decode_size_gate.2 containerB (some "SOFTWARE") _ _ rfl rfl).1).trans
      (by decide),
    (c2_decode_size_gate.2 containerB (some "SOFTWARE") _ _ rfl rfl).2
      blobLastReg (by decide)⟩

/-- C3: for a successfully decoded `DynamicInfo` record, a "Last
registered time" observation is emitted iff `last_registered_time` is
nonzero and a "Launch time" observation iff `launch_time` is nonzero;
zero values never produce a timestamped observation; and every
timestamped observation of the subkey carries the resolved task name
and the task identifier (the subkey's name) with one of the two labels
and the corresponding nonzero timestamp. -/
theorem c3_timestamped_events_iff_nonzero (key : RegKey) (rt : Option String)
    (g : List (String × String)) (sub : RegKey) (v : RegValue)
    (di : DynamicInfoRecord)
    (h : RegKey.GetValue sub "DynamicInfo" = some v)
    (hl : v.raw_data.length = 28)
    (hp : parseDynamicInfo v.raw_data = some di) :
    (Event.taskCacheEvent di.last_registered_time "Last registered time"
        (dictGet g sub.name sub.name) sub.name 0 ∈
        (processTaskSubkey key rt g sub).events ↔
      di.last_registered_time ≠ 0) ∧
    (Event.taskCacheEvent di.launch_time "Launch time"
        (dictGet g sub.name sub.name) sub.name 0 ∈
        (processTaskSubkey key rt g sub).events ↔
      di.launch_time ≠ 0) ∧
    (∀ t d nm idf off, Event.taskCacheEvent t d nm idf off ∈
        (processTaskSubkey key rt g sub).events →
      nm = dictGet g sub.name sub.name ∧ idf = sub.name ∧
      ((d = "Last registered time" ∧ t = di.last_registered_time ∧ t ≠ 0) ∨
        (d = "Launch time" ∧ t = di.launch_time ∧ t ≠ 0))) := by
  rw [processTaskSubkey_of_good_size key rt g sub v di h hl hp]
  by_cases h1 : di.last_registered_time = 0 <;>
    by_cases h2 : di.launch_time = 0
  · refine ⟨?_, ?_, ?_⟩
    · simp [h1, h2]
    · simp [h1, h2]
    · intro t d nm idf off hmem
      simp [h1, h2] at hmem
  · refine ⟨?_, ?_, ?_⟩
    · simp [h1, h2]
    · simp [h1, h2]
    · intro t d nm idf off hmem
      simp [h1, h2] at hmem
      obtain ⟨rfl, rfl, rfl, rfl, rfl⟩ := hmem
      exact ⟨rfl, rfl, Or.inr ⟨rfl, rfl, h2⟩⟩
  · refine ⟨?_, ?_, ?_⟩
    · simp [h1, h2]
    · simp [h1, h2]
    · intro t d nm idf off hmem
      simp [h1, h2] at hmem
      obtain ⟨rfl, rfl, rfl, rfl, rfl⟩ := hmem
      exact ⟨rfl, rfl, Or.inl ⟨rfl, rfl, h1⟩⟩
  · refine ⟨?_, ?_, ?_⟩
    · simp [h1, h2]
    · simp [h1, h2]
    · intro t d nm idf off hmem
      simp [h1, h2] at hmem
      rcases hmem with ⟨rfl, rfl, rfl, rfl, rfl⟩ | ⟨rfl, rfl, rfl, rfl, rfl⟩
      · exact ⟨rfl, rfl, Or.inl ⟨rfl, rfl, h1⟩⟩
      · exact ⟨rfl, rfl, Or.inr ⟨rfl, rfl, h2⟩⟩

/-- Witness for C3: in the example task the nonzero
`last_registered_time` (100) is emitted, the zero `launch_time` is
not. -/
theorem c3_timestamped_events_iff_nonzero_witness :
    Event.taskCacheEvent 100 "Last registered time" "MyTask" "TaskIdB" 0 ∈
      (processTaskSubkey containerB (some "SOFTWARE")
        [("TaskIdB", "MyTask")] subGoodDyn).events ∧
    ¬(Event.taskCacheEvent 0 "Launch time" "MyTask" "TaskIdB" 0 ∈
      (processTaskSubkey containerB (some "SOFTWARE")
        [("TaskIdB", "MyTask")] subGoodDyn).events) :=
  ⟨((c3_timestamped_events_iff_nonzero containerB (some "SOFTWARE")
      [("TaskIdB", "MyTask")] subGoodDyn ⟨"DynamicInfo", "", blobLastReg⟩
      ⟨1, 100, 0⟩ rfl (by decide) (by decide)).1).mpr (by decide),
    fun hmem => (((c3_timestamped_events_iff_nonzero containerB
      (some "SOFTWARE") [("TaskIdB", "MyTask")] subGoodDyn
      ⟨"DynamicInfo", "", blobLastReg⟩ ⟨1, 100, 0⟩ rfl (by decide)
      (by decide)).2.1).mp hmem) rfl⟩

/-- C6: the displayed task name of every output record of a task subkey
is `task_guids.get(sub_key.name, sub_key.name)`: when the subkey's name
is not a key of the identifier map the raw subkey name is displayed
(fallback), and when it is a key the stored tree-node name is displayed
— in the timestamped observations' name field and in the generic
observation's "Task: ..." display pair alike. -/
theorem c6_name_resolution_fallback (key : RegKey) (rt : Option String)
    (g : List (String × String)) (sub : RegKey) :
    (g.find? (fun q => q.1 == RegKey.name sub) = none →
      dictGet g sub.name sub.name = sub.name) ∧
    (∀ q, g.find? (fun q => q.1 == RegKey.name sub) = some q →
      dictGet g sub.name sub.name = q.2) ∧
    (∀ t d nm idf off, Event.taskCacheEvent t d nm idf off ∈
        (processTaskSubkey key rt g sub).events →
      nm = dictGet g sub.name sub.name) ∧
    (∀ ts p td off rt2, Event.registryEvent ts p td off rt2 ∈
        (processTaskSubkey key rt g sub).events →
      td = [("Task: " ++ dictGet g sub.name sub.name,
        "[ID: " ++ sub.name ++ "]")]) := by
  refine ⟨fun hf => by unfold dictGet; rw [hf],
    fun q hf => by unfold dictGet; rw [hf], ?_, ?_⟩ <;>
  · cases h : RegKey.GetValue sub "DynamicInfo" with
    | none =>
      rw [processTaskSubkey_of_no_value key rt g sub h]
      intro _ _ _ _ _ hmem
      simp at hmem
    | some v =>
      by_cases hl : v.raw_data.length = 28
      · obtain ⟨di, hp⟩ : ∃ di, parseDynamicInfo v.raw_data = some di :=
          ⟨_, parseDynamicInfo_of_length v.raw_data hl⟩
        rw [processTaskSubkey_of_good_size key rt g sub v di h hl hp]
        intro t d nm idf off hmem
        by_cases h1 : di.last_registered_time = 0 <;>
          by_cases h2 : di.launch_time = 0 <;>
          simp [h1, h2] at hmem <;>
          first
          | (rcases hmem with ⟨rfl, rfl, rfl, rfl, rfl⟩ |
              ⟨rfl, rfl, rfl, rfl, rfl⟩ <;> rfl)
          | (obtain ⟨rfl, rfl, rfl, rfl, rfl⟩ := hmem; rfl)
      · rw [processTaskSubkey_of_bad_size key rt g sub v h hl]
        intro _ _ _ _ _ hmem
        simp at hmem

/-- Witness for C6: with an empty identifier map the lookup falls back
to the raw subkey name, and with the populated map of `containerB` the
stored tree-node name is displayed. -/
theorem c6_name_resolution_fallback_witness :
    dictGet [] (RegKey.name subNoDyn) (RegKey.name subNoDyn) =
      RegKey.name subNoDyn ∧
    dictGet [("TaskIdB", "MyTask")] (RegKey.name subGoodDyn)
      (RegKey.name subGoodDyn) = ("TaskIdB", "MyTask").2 :=
  ⟨(c6_name_resolution_fallback containerA none [] subNoDyn).1 rfl,
    (c6_name_resolution_fallback containerB (some "SOFTWARE")
      [("TaskIdB", "MyTask")] subGoodDyn).2.1 ("TaskIdB", "MyTask") (by decide)⟩

/-- Counterexample to C8 as stated: in `containerB` (whose byte offset
is 7) the timestamped "Last registered time" observation is delivered
with offset 0 — `TaskCacheEvent.__init__` hardcodes `self.offset = 0`
and stores no source path and no registry store type; only the generic
key-visit record carries the path, the byte offset (7) and the store
type tag. -/
theorem c8_counterexample :
    (GetEntries containerB (some "SOFTWARE")).events =
      [Event.registryEvent 111 "HKLM-Software-TaskCache"
        [("Task: MyTask", "[ID: TaskIdB]")] 7 (some "SOFTWARE"),
       Event.taskCacheEvent 100 "Last registered time" "MyTask" "TaskIdB" 0] ∧
    RegKey.offset containerB = 7 ∧ (0 : Nat) ≠ 7 :=
  ⟨by decide, rfl, by decide⟩

/-- C8 (amended): every timestamped observation delivered to the sink
carries the 64-bit timestamp, label, resolved task name and task
identifier, but a constant offset 0 and no source path or registry
store type; the provenance fields (container path, byte offset, store
type tag) are carried only by the generic key-visit records. -/
theorem c8_provenance_fields (key : RegKey) (rt : Option String) :
    (∀ t d nm idf off, Event.taskCacheEvent t d nm idf off ∈
        (GetEntries key rt).events → off = 0) ∧
    (∀ ts p td off rt2, Event.registryEvent ts p td off rt2 ∈
        (GetEntries key rt).events →
      ts = key.last_written_timestamp ∧ p = key.path ∧
      off = key.offset ∧ rt2 = rt) := by
  have hmain : ∀ e ∈ (GetEntries key rt).events,
      (∃ td, e = Event.registryEvent key.last_written_timestamp key.path td
        key.offset rt) ∨
      (∃ t d nm idf, e = Event.taskCacheEvent t d nm idf 0) := by
    intro e he
    cases hT : key.GetSubkey "Tasks" with
    | none =>
      rw [GetEntries_of_missing key rt (Or.inl hT)] at he
      simp at he
    | some tasks_key =>
      cases hR : key.GetSubkey "Tree" with
      | none =>
        rw [GetEntries_of_missing key rt (Or.inr hR)] at he
        simp at he
      | some tree_key =>
        rw [GetEntries_of_subkeys key rt tasks_key tree_key hT hR] at he
        have he' : e ∈ (tasks_key.subkeys.map (fun s =>
            (processTaskSubkey key rt
              (buildTaskGuids [] [] (getIdValueList tree_key.subkeys)).1
              s).events)).flatten := he
        rw [List.mem_flatten] at he'
        obtain ⟨l, hl, hel⟩ := he'
        rw [List.mem_map] at hl
        obtain ⟨s, -, rfl⟩ := hl
        rcases mem_processTaskSubkey_events key rt _ s e hel with
          ⟨td, rfl⟩ | ⟨t, d, nm, rfl⟩
        · exact Or.inl ⟨td, rfl⟩
        · exact Or.inr ⟨t, d, nm, _, rfl⟩
  constructor
  · intro t d nm idf off hmem
    rcases hmain _ hmem with ⟨td, heq⟩ | ⟨t', d', nm', idf', heq⟩
    · exact absurd heq (by simp)
    · rw [Event.taskCacheEvent.injEq] at heq
      exact heq.2.2.2.2
  · intro ts p td off rt2 hmem
    rcases hmain _ hmem with ⟨td', heq⟩ | ⟨t', d', nm', idf', heq⟩
    · rw [Event.registryEvent.injEq] at heq
      exact ⟨heq.1, heq.2.1, heq.2.2.2.1, heq.2.2.2.2⟩
    · exact absurd heq (by simp)

/-- Witness for C8 (amended): the generic record of `containerB`
carries its timestamp 111, path, offset 7 and store type tag. -/
theorem c8_provenance_fields_witness :
    (111 : Nat) = RegKey.last_written_timestamp containerB ∧
    "HKLM-Software-TaskCache" = RegKey.path containerB ∧
    (7 : Nat) = RegKey.offset containerB ∧
    (some "SOFTWARE" : Option String) = some "SOFTWARE" :=
  (c8_provenance_fields containerB (some "SOFTWARE")).2 111
    "HKLM-Software-TaskCache" [("Task: MyTask", "[ID: TaskIdB]")] 7
    (some "SOFTWARE") (by decide)
